import Mathlib

/-!
Verification of the `conerror` error-provenance library.

The development shallowly embeds the two source files:

* `src/src/lib.rs` — the runtime `Error` value (boxed cause, optional ordered
  list of `Location` frames, ordered context stack) together with the
  constructors `new`, `plain`, the chaining algorithm `chain`, the accessors
  `location`, `message`, `source`, the context push, and the serde projection.
* `src/conerror_macro/src/lib.rs` — the attribute-macro transformer: the
  try-expression rewrite (`MapErr::visit_expr_try_mut`) and the per-method
  opt-in handling of an impl block (`MapErr::visit_impl_item_fn_mut`).

Rust `&'static str` fields are embedded as `String`, `u32` line numbers as
`Nat` (no arithmetic is ever performed on them), `Vec` as `List`, and the
boxed trait object `BoxError` as an opaque record carrying its display text.
A `Vec::remove` that may panic is embedded as an `Option`-valued removal.
-/

namespace Conerror

/-- One recorded propagation point; embeds `struct Location` of
`src/src/lib.rs` (fields `file`, `line`, `func`, `module`). -/
structure Location where
  file : String
  line : Nat
  func : String
  module : String
  deriving DecidableEq

/-- The boxed underlying failure value (`BoxError = Box<dyn std::error::Error ...>`):
opaque apart from its `Display` text, which `Error::message` consumes via
`to_string`. -/
structure Cause where
  display : String
  deriving DecidableEq

/-- Embeds `struct Inner` of `src/src/lib.rs`: the boxed source, the optional
frame list and the context stack. -/
structure Inner where
  source : Cause
  location : Option (List Location)
  context : List String
  deriving DecidableEq

/-- Embeds `pub struct Error(Box<Inner>)`; the box is memory layout only. -/
structure Error where
  inner : Inner
  deriving DecidableEq

/-- Embeds `Error::new`: wraps the cause with a single initial frame and an
empty context stack. -/
def Error.new (error : Cause) (file : String) (line : Nat)
    (func module : String) : Error :=
  ⟨⟨error, some [⟨file, line, func, module⟩], []⟩⟩

/-- Embeds `Error::plain`: wraps the cause with `location = None` and an empty
context stack. -/
def Error.plain (error : Cause) : Error :=
  ⟨⟨error, none, []⟩⟩

/-- The argument of `Error::chain` is generic over `T: ErrorTrait + 'static`;
at runtime `TypeId::of::<T>() == TypeId::of::<Error>()` splits it into exactly
two cases: the value is the `Error` type itself, or it is any other (foreign)
failure type. -/
inductive ErrVal where
  | err (e : Error)
  | foreign (c : Cause)
  deriving DecidableEq

/-- Embeds `Error::chain`. On a type-identity match the value is moved out
(`ManuallyDrop` + `ptr::read`, no reboxing) and a frame is pushed iff the
location list is present; otherwise it delegates to `Error::new`. -/
def Error.chain (error : ErrVal) (file : String) (line : Nat)
    (func module : String) : Error :=
  match error with
  | .err e =>
    match e.inner.location with
    | some loc =>
      ⟨⟨e.inner.source, some (loc ++ [⟨file, line, func, module⟩]), e.inner.context⟩⟩
    | none => e
  | .foreign c => Error.new c file line func module

/-- Embeds `Error::context`: pushes the rendered text onto the context stack
and returns the value. -/
def Error.context (e : Error) (context : String) : Error :=
  ⟨⟨e.inner.source, e.inner.location, e.inner.context ++ [context]⟩⟩

/-- Embeds `Error::location`: the read-only projection of the frame list. -/
def Error.location (e : Error) : Option (List Location) :=
  e.inner.location

/-- Embeds `Error::message`: the loop pushes each context string (iterated in
reverse) followed by `": "`, then the display text of the source. -/
def Error.message (e : Error) : String :=
  (e.inner.context.reverse.foldl (fun s c => s ++ c ++ ": ") "") ++ e.inner.source.display

/-- Embeds `impl Display for Location`:
`"{file}:{line} {module}::{func}()"`. -/
def Location.render (l : Location) : String :=
  l.file ++ ":" ++ toString l.line ++ " " ++ l.module ++ "::" ++ l.func ++ "()"

/-- The record produced by `impl serde::Serialize for Error`: a struct with
exactly the two fields `message` and `location`. -/
structure SerializedError where
  message : String
  location : List String
  deriving DecidableEq

/-- Embeds the body of `serialize`: field `message` is `self.message()`, field
`location` maps `Location::to_string` over the frames, defaulting to the empty
vector when the location is absent. -/
def Error.serialize (e : Error) : SerializedError :=
  ⟨e.message, (e.inner.location.map (fun v => v.map Location.render)).getD []⟩

/-- Embeds `<Error as std::error::Error>::source`: always
`Some(&*self.0.source)`. -/
def Error.source (e : Error) : Option Cause :=
  some e.inner.source

/-- A runtime operation subsequently applied to an `Error` value: a `chain`
call (with the value passed at type `Error` itself) or a `context` push. -/
inductive Op where
  | chain (file : String) (line : Nat) (func module : String)
  | context (s : String)

/-- Applies one operation. -/
def applyOp (e : Error) (op : Op) : Error :=
  match op with
  | .chain f l fn m => Error.chain (.err e) f l fn m
  | .context s => Error.context e s

/-- Applies a sequence of operations, oldest first. -/
def applyOps (e : Error) (ops : List Op) : Error :=
  ops.foldl applyOp e

/-- A sequence of `chain` calls whose generic type is the `Error` type itself,
one call per frame tuple, applied oldest first. -/
def chainCalls (e : Error) (ts : List Location) : Error :=
  ts.foldl (fun acc t => Error.chain (.err acc) t.file t.line t.func t.module) e

/-- Rendering required by the spec of `message`: each context string, from
most-recently-pushed to least, followed by the separator `": "`, then the
base text. Used to compare `Error.message` against the spec wording. -/
def renderContexts : List String → String → String
  | [], base => base
  | c :: rest, base => c ++ ": " ++ renderContexts rest base

/-!
Embedding of the transformer in `src/conerror_macro/src/lib.rs`.

`MapErr` rewrites every `ExprTry` (the `?` operator) it visits into
`expr.map_err(|err| conerror::Error::chain(err, file!(), line!(), ident, module))`
and then recurses into the rewritten expression, so nested try expressions
inside `expr` are rewritten too. The `module` argument is
`std::any::type_name::<SelfTy>()` when the visitor carries a self type (the
impl entry point) and `module_path!()` otherwise (the free-function entry
point); both are deferred compile-time expressions, embedded here as the two
constructors of `ModuleMeta`.
-/

/-- The `module` argument the rewrite injects into the emitted `chain` call. -/
inductive ModuleMeta where
  | typeName (ty : String)
  | modulePath
  deriving DecidableEq

/-- Expressions, at the granularity the rewrite observes: literals, function
application, the try operator, and the injected
`·.map_err(|err| Error::chain(err, file!(), line!(), func, module))` wrapper
(whose `file!()`/`line!()` spans are left implicit). -/
inductive Expr where
  | lit (n : Nat)
  | app (f a : Expr)
  | tryE (e : Expr)
  | chainCall (e : Expr) (func : String) (m : ModuleMeta)
  deriving DecidableEq

/-- Embeds `MapErr::visit_expr_try_mut` together with the default mutable
visitor: a try expression first has its scrutinee wrapped in the `map_err`
chain call, then the visitor recurses into the rewritten scrutinee (the
injected closure contains no try expression, so recursion reaches exactly the
original scrutinee); all other nodes are traversed structurally. -/
def visitExpr (ident : String) (m : ModuleMeta) : Expr → Expr
  | .lit n => .lit n
  | .app f a => .app (visitExpr ident m f) (visitExpr ident m a)
  | .tryE e => .tryE (.chainCall (visitExpr ident m e) ident m)
  | .chainCall e fn mm => .chainCall (visitExpr ident m e) fn mm

/-- All `module` arguments of chain calls occurring in an expression, in
traversal order. -/
def collectModules : Expr → List ModuleMeta
  | .lit _ => []
  | .app f a => collectModules f ++ collectModules a
  | .tryE e => collectModules e
  | .chainCall e _ mm => mm :: collectModules e

/-- Number of try expressions (rewrite targets) in an expression. -/
def tryCount : Expr → Nat
  | .lit _ => 0
  | .app f a => tryCount f + tryCount a
  | .tryE e => tryCount e + 1
  | .chainCall e _ _ => tryCount e

/-- A standalone function item (`ItemFn`): its identifier and body. -/
structure ItemFn where
  name : String
  body : Expr
  deriving DecidableEq

/-- A method inside an impl block (`ImplItemFn`): its attribute list (each
attribute abbreviated to its path identifier), identifier and body. -/
structure ImplItemFn where
  attrs : List String
  name : String
  body : Expr
  deriving DecidableEq

/-- An impl block (`ItemImpl`): the self type and the methods. -/
structure ItemImpl where
  selfTy : String
  items : List ImplItemFn
  deriving DecidableEq

/-- Embeds `Vec::remove(idx)` on the attribute list: removes the element at
`idx`, or panics (`none`) when `idx` is out of bounds. -/
def vecRemove (attrs : List String) (idx : Nat) : Option (List String) :=
  if idx < attrs.length then some (attrs.eraseIdx idx) else none

/-- Embeds the removal loop `for idx in indices { i.attrs.remove(idx); }`,
applying the removals in order on the shrinking list. -/
def removeIndices (attrs : List String) (indices : List Nat) : Option (List String) :=
  indices.foldl (fun acc idx => acc.bind (fun l => vecRemove l idx)) (some attrs)

/-- Embeds the index-collection loop of `visit_impl_item_fn_mut`: the indices
of the `conerror` attributes in the original attribute list. -/
def conerrorIndices (attrs : List String) : List Nat :=
  (attrs.enum.filter (fun p => p.2 == "conerror")).map (fun p => p.1)

/-- Embeds `MapErr::visit_impl_item_fn_mut` for a visitor carrying self type
`selfTy`: a method without a `conerror` attribute is returned untouched;
otherwise the collected indices are removed one by one, `ident` is set to the
method name, and the body is visited. `none` models a macro panic. -/
def visitImplItemFn (selfTy : String) (f : ImplItemFn) : Option ImplItemFn :=
  let indices := conerrorIndices f.attrs
  if indices.isEmpty then some f
  else
    (removeIndices f.attrs indices).map (fun attrs =>
      ⟨attrs, f.name, visitExpr f.name (ModuleMeta.typeName selfTy) f.body⟩)

/-- Embeds the `Item::Fn` arm of the `conerror` entry point:
`MapErr::new(None, Some(f.sig.ident.to_string())).visit_item_fn_mut(&mut f)`,
whose try rewrite therefore uses `module_path!()` as `module`. -/
def conerrorFn (f : ItemFn) : ItemFn :=
  ⟨f.name, visitExpr f.name ModuleMeta.modulePath f.body⟩

/-- Embeds the `Item::Impl` arm of the `conerror` entry point:
`MapErr::new(Some(i.self_ty.clone()), None).visit_item_impl_mut(&mut i)`,
which visits every method via `visit_impl_item_fn_mut`. -/
def conerrorImpl (i : ItemImpl) : Option ItemImpl :=
  (i.items.mapM (visitImplItemFn i.selfTy)).map (fun items => ⟨i.selfTy, items⟩)

/-! ### Helper lemmas -/

/-- Chaining a value that is already an `Error` with a present location list
appends exactly one frame; source and context pass through. -/
theorem chain_err_of_location_some (e : Error) (loc : List Location)
    (f : String) (l : Nat) (fn m : String) (h : e.inner.location = some loc) :
    Error.chain (.err e) f l fn m
      = ⟨⟨e.inner.source, some (loc ++ [⟨f, l, fn, m⟩]), e.inner.context⟩⟩ := by
  simp [Error.chain, h]

/-- Chaining a value that is already an `Error` with an absent location list
returns it unchanged. -/
theorem chain_err_of_location_none (e : Error)
    (f : String) (l : Nat) (fn m : String) (h : e.inner.location = none) :
    Error.chain (.err e) f l fn m = e := by
  simp [Error.chain, h]

/-- Iterated chaining (at the `Error` type) appends the frame tuples, in call
order, to a present location list. -/
theorem chainCalls_location_some (ts : List Location) :
    ∀ (e : Error) (locs : List Location), e.inner.location = some locs →
      (chainCalls e ts).inner.location = some (locs ++ ts) := by
  induction ts with
  | nil => intro e locs h; simpa [chainCalls] using h
  | cons t ts ih =>
    intro e locs h
    have hstep : Error.chain (.err e) t.file t.line t.func t.module
        = ⟨⟨e.inner.source, some (locs ++ [t]), e.inner.context⟩⟩ := by
      simpa using chain_err_of_location_some e locs t.file t.line t.func t.module h
    have hfold : chainCalls e (t :: ts)
        = chainCalls (Error.chain (.err e) t.file t.line t.func t.module) ts := rfl
    rw [hfold, hstep]
    simpa using ih ⟨⟨e.inner.source, some (locs ++ [t]), e.inner.context⟩⟩ (locs ++ [t]) rfl

/-- An absent location list stays absent under any sequence of chain calls and
context pushes. -/
theorem applyOps_location_none (ops : List Op) :
    ∀ e : Error, e.inner.location = none → (applyOps e ops).inner.location = none := by
  induction ops with
  | nil => intro e h; simpa [applyOps] using h
  | cons op ops ih =>
    intro e h
    have hfold : applyOps e (op :: ops) = applyOps (applyOp e op) ops := rfl
    rw [hfold]
    apply ih
    cases op with
    | chain f l fn m =>
      simpa [applyOp, chain_err_of_location_none e f l fn m h] using h
    | context s => simpa [applyOp, Error.context] using h

/-- Accumulator form of the message loop versus the spec rendering. -/
theorem foldl_context_render (l : List String) :
    ∀ (init base : String),
      (l.foldl (fun s c => s ++ c ++ ": ") init) ++ base
        = init ++ renderContexts l base := by
  induction l with
  | nil => intro init base; simp [renderContexts]
  | cons c rest ih =>
    intro init base
    have h1 : (c :: rest).foldl (fun s c => s ++ c ++ ": ") init
        = rest.foldl (fun s c => s ++ c ++ ": ") (init ++ c ++ ": ") := rfl
    rw [h1, ih]
    simp only [renderContexts]
    apply String.ext
    simp

/-- The message of any `Error` value is exactly the spec rendering of its
reversed context stack over the display text of its source. -/
theorem message_eq_renderContexts (e : Error) :
    e.message = renderContexts e.inner.context.reverse e.inner.source.display := by
  have h := foldl_context_render e.inner.context.reverse "" e.inner.source.display
  simpa [Error.message] using h

/-- On a body containing no chain calls, the try rewrite produces one chain
call per try expression, all carrying the visitor's module argument. -/
theorem collectModules_visitExpr (ident : String) (m : ModuleMeta) :
    ∀ e : Expr, collectModules e = [] →
      collectModules (visitExpr ident m e) = List.replicate (tryCount e) m := by
  intro e
  induction e with
  | lit n => intro h; simp [visitExpr, collectModules, tryCount]
  | app f a ihf iha =>
    intro h
    rw [collectModules, List.append_eq_nil] at h
    simp only [visitExpr, collectModules, tryCount]
    rw [ihf h.1, iha h.2, List.replicate_add]
  | tryE e ihe =>
    intro h
    rw [collectModules] at h
    simp only [visitExpr, collectModules, tryCount]
    rw [ihe h, List.replicate_succ]
  | chainCall e fn mm ihe =>
    intro h
    simp [collectModules] at h

/-! ### Claim theorems -/

/-- C1: for every error value created by `new` and every sequence of `k`
subsequent `chain` calls with frame tuples `t1..tk` (each call at the `Error`
type itself), the resulting location sequence is exactly
`[initial_frame, t1, ..., tk]`, of length `k+1`, oldest first. -/
theorem new_chainCalls_location (c : Cause) (f : String) (l : Nat)
    (fn m : String) (ts : List Location) :
    (chainCalls (Error.new c f l fn m) ts).location = some (⟨f, l, fn, m⟩ :: ts)
    ∧ ((chainCalls (Error.new c f l fn m) ts).location.getD []).length
        = ts.length + 1 := by
  have h := chainCalls_location_some ts (Error.new c f l fn m) [⟨f, l, fn, m⟩] rfl
  refine ⟨by simpa [Error.location] using h, ?_⟩
  simp [Error.location, h]

/-- C2: `chain` applied to a value whose concrete runtime type is not the
`Error` type returns the same result as `new`: a fresh error value whose
location sequence holds exactly the one frame passed in. -/
theorem chain_foreign_eq_new (c : Cause) (f : String) (l : Nat) (fn m : String) :
    Error.chain (.foreign c) f l fn m = Error.new c f l fn m
    ∧ (Error.chain (.foreign c) f l fn m).location = some [⟨f, l, fn, m⟩] :=
  ⟨rfl, rfl⟩

/-- C3: a `plain`-created value has an absent location, and the location stays
absent under any sequence of further `chain` calls and `context` pushes. -/
theorem plain_location_forever_absent (c : Cause) (ops : List Op) :
    (Error.plain c).location = none
    ∧ (applyOps (Error.plain c) ops).location = none := by
  refine ⟨rfl, ?_⟩
  simpa [Error.location] using applyOps_location_none ops (Error.plain c) rfl

/-- C4: `new` always succeeds and yields a value whose location is present
with exactly the one frame passed in and whose context stack is empty. -/
theorem new_single_frame (c : Cause) (f : String) (l : Nat) (fn m : String) :
    (Error.new c f l fn m).location = some [⟨f, l, fn, m⟩]
    ∧ (Error.new c f l fn m).inner.context = [] :=
  ⟨rfl, rfl⟩

/-- C5: chaining a value that is itself an `Error` with a present location
sequence only appends the one new frame at the end; the boxed source and the
context stack are returned unchanged. -/
theorem chain_appends_single_frame (e : Error) (loc : List Location)
    (f : String) (l : Nat) (fn m : String) (h : e.inner.location = some loc) :
    Error.chain (.err e) f l fn m
      = ⟨⟨e.inner.source, some (loc ++ [⟨f, l, fn, m⟩]), e.inner.context⟩⟩ :=
  chain_err_of_location_some e loc f l fn m h

/-- Witness for C5 at a concrete one-frame error. -/
theorem chain_appends_single_frame_witness :
    Error.chain (.err (Error.new ⟨"boom"⟩ "a.rs" 1 "f" "M")) "b.rs" 2 "g" "N"
      = ⟨⟨(Error.new ⟨"boom"⟩ "a.rs" 1 "f" "M").inner.source,
          some ([⟨"a.rs", 1, "f", "M"⟩] ++ [⟨"b.rs", 2, "g", "N"⟩]),
          (Error.new ⟨"boom"⟩ "a.rs" 1 "f" "M").inner.context⟩⟩ :=
  chain_appends_single_frame (Error.new ⟨"boom"⟩ "a.rs" 1 "f" "M")
    [⟨"a.rs", 1, "f", "M"⟩] "b.rs" 2 "g" "N" rfl

/-- C6: `message` renders the context strings last-pushed-first, each followed
by the separator, then the display text of the cause; it never reads the
location frames; and pushing "a" then "b" over a cause displaying "boom"
yields "b: a: boom". -/
theorem message_renders_context_lifo :
    (∀ e : Error,
        e.message = renderContexts e.inner.context.reverse e.inner.source.display)
    ∧ (∀ (src : Cause) (loc loc' : Option (List Location)) (ctx : List String),
        (Error.mk ⟨src, loc, ctx⟩).message = (Error.mk ⟨src, loc', ctx⟩).message)
    ∧ (Error.context (Error.context (Error.plain ⟨"boom"⟩) "a") "b").message
        = "b: a: boom" :=
  ⟨message_eq_renderContexts, fun _ _ _ _ => rfl, rfl⟩

/-- C7: every frame injected by the method-collection entry into an opted-in
method of an impl block for type `ty` carries `std::any::type_name::<ty>()`
as its module argument (the type-derived name), while every frame injected by
the function-level entry carries `module_path!()` (the enclosing module's
path); in both cases exactly one frame per propagation point. -/
theorem transformer_module_field (ty : String) (g g' : ImplItemFn) (f : ItemFn)
    (hg : collectModules g.body = []) (hf : collectModules f.body = [])
    (hopt : conerrorIndices g.attrs ≠ [])
    (h : visitImplItemFn ty g = some g') :
    collectModules g'.body
      = List.replicate (tryCount g.body) (ModuleMeta.typeName ty)
    ∧ collectModules (conerrorFn f).body
      = List.replicate (tryCount f.body) ModuleMeta.modulePath := by
  constructor
  · rw [visitImplItemFn] at h
    rw [if_neg (by simpa [List.isEmpty_iff] using hopt)] at h
    cases hrem : removeIndices g.attrs (conerrorIndices g.attrs) with
    | none => rw [hrem] at h; simp at h
    | some attrs =>
      rw [hrem] at h
      simp only [Option.map_some'] at h
      injection h with h
      rw [← h]
      exact collectModules_visitExpr g.name (ModuleMeta.typeName ty) g.body hg
  · exact collectModules_visitExpr f.name ModuleMeta.modulePath f.body hf

/-- Witness for C7: a one-marker method with a single try expression, and a
free function with a single try expression. -/
theorem transformer_module_field_witness :
    collectModules (ImplItemFn.mk []
        "m" (.tryE (.chainCall (.lit 0) "m" (.typeName "T")))).body
      = List.replicate (tryCount (Expr.tryE (Expr.lit 0))) (ModuleMeta.typeName "T")
    ∧ collectModules (conerrorFn ⟨"a", .tryE (.lit 0)⟩).body
      = List.replicate (tryCount (Expr.tryE (Expr.lit 0))) ModuleMeta.modulePath :=
  transformer_module_field "T" ⟨["conerror"], "m", .tryE (.lit 0)⟩
    ⟨[], "m", .tryE (.chainCall (.lit 0) "m" (.typeName "T"))⟩
    ⟨"a", .tryE (.lit 0)⟩ rfl rfl (by decide) (by decide)

/-- C8 (failing input): on a method carrying attributes
`[conerror, conerror, allow]`, the removal loop leaves one `conerror` marker
in the emitted attribute list (and drops the unrelated `allow` attribute
instead); on a method carrying exactly `[conerror, conerror]`, the second
`Vec::remove` is out of bounds and the macro panics. -/
theorem impl_marker_removal_fails :
    (visitImplItemFn "T" ⟨["conerror", "conerror", "allow"], "m", .lit 0⟩).map
        (fun g => g.attrs) = some ["conerror"]
    ∧ visitImplItemFn "T" ⟨["conerror", "conerror"], "m", .lit 0⟩ = none := by
  decide

/-- C9: the serde projection of every error value is a record with exactly
the fields `message` (equal to `message()`) and `location` (one rendered
string per frame, in chain order; the empty sequence when the location is
absent, covering `plain`-created values); a frame renders as
`"<file>:<line> <module>::<func>()"`. -/
theorem serialize_projection (e : Error) (c : Cause)
    (f : String) (l : Nat) (fn m : String) :
    Error.serialize e = ⟨e.message, (e.inner.location.getD []).map Location.render⟩
    ∧ Error.serialize (Error.plain c) = ⟨(Error.plain c).message, []⟩
    ∧ Location.render ⟨f, l, fn, m⟩
        = f ++ ":" ++ toString l ++ " " ++ m ++ "::" ++ fn ++ "()" := by
  refine ⟨?_, rfl, rfl⟩
  cases h : e.inner.location with
  | none => simp [Error.serialize, h]
  | some loc => simp [Error.serialize, h]

/-- C10: the standard error-interface `source` accessor returns `Some` of the
wrapped cause for every error value, however constructed and after any
sequence of chain calls and context pushes; it is never `None`. -/
theorem source_always_some (e : Error) (ops : List Op) (c : Cause)
    (f : String) (l : Nat) (fn m : String) :
    Error.source (applyOps e ops) = some (applyOps e ops).inner.source
    ∧ (Error.source (applyOps e ops)).isSome = true
    ∧ Error.source (Error.new c f l fn m) = some c
    ∧ Error.source (Error.plain c) = some c
    ∧ Error.source (Error.chain (.foreign c) f l fn m) = some c :=
  ⟨rfl, rfl, rfl, rfl, rfl⟩

end Conerror
